import Mathlib

set_option maxRecDepth 8192

/-!
Shallow embedding of the `rtos_data_acquisition` firmware, covering the
protocol codec (`src/net/protocol.c`, `include/net/protocol.h`) and the
acquisition module (`task_acquisition.c`).

Conventions of the embedding:
* C byte buffers are `List Nat` whose elements are byte values; every
  store of a multi-byte integer goes through an explicit little-endian
  serialization (`le16`, `le32`), matching the packed structs compiled
  for the little-endian Cortex-M3 target.
* `uint16_t` / `uint32_t` values are `Nat` with an explicit `% 2 ^ w`
  at each point where the C code narrows or overflows.
* The static `uint16_t sequence_counter` is threaded explicitly: each
  builder takes the counter value and returns the updated one.
* Nullability of pointer arguments is modelled by a `Bool` flag per
  pointer (`true` means the caller passed `NULL`); the pointed-to data
  is passed by value.
* A fallible C function returning `protocol_status_t` is a Lean
  function returning the status together with its outputs; on failure
  the byte output is `[]` (the C code writes nothing before the checks).
-/

/-- Maximum data payload size (`PROTOCOL_MAX_DATA_SIZE` in protocol.h). -/
def PROTOCOL_MAX_DATA_SIZE : Nat := 1400

/-- Protocol magic number (`PROTOCOL_MAGIC` in protocol.h). -/
def PROTOCOL_MAGIC : Nat := 0xDA7A

/-- Message type codes from `protocol_msg_type_t`. -/
def MSG_TYPE_PING : Nat := 0x01

/-- Pong response message type. -/
def MSG_TYPE_PONG : Nat := 0x02

/-- ADC data packet message type. -/
def MSG_TYPE_DATA : Nat := 0x10

/-- Command message type. -/
def MSG_TYPE_CMD : Nat := 0x20

/-- Status report message type. -/
def MSG_TYPE_STATUS : Nat := 0x30

/-- Status codes of the codec (`protocol_status_t`). -/
inductive protocol_status_t where
  | PROTO_STATUS_OK
  | PROTO_STATUS_ERROR
  | PROTO_STATUS_INVALID_MSG
  | PROTO_STATUS_BUFFER_TOO_SMALL
deriving Repr, DecidableEq

open protocol_status_t

/-- Little-endian serialization of a 16-bit value into two bytes. -/
def le16 (v : Nat) : List Nat := [v % 256, v / 256 % 256]

/-- Little-endian serialization of a 32-bit value into four bytes. -/
def le32 (v : Nat) : List Nat :=
  [v % 256, v / 256 % 256, v / 65536 % 256, v / 16777216 % 256]

/-- Little-endian read of a 16-bit value from two bytes. -/
def rd16 (lo hi : Nat) : Nat := lo % 256 + 256 * (hi % 256)

/-- The 7-byte packet header (`protocol_header_t`, packed). -/
structure protocol_header_t where
  magic : Nat
  msg_type : Nat
  sequence : Nat
  payload_len : Nat
deriving Repr, DecidableEq

/-- Byte image of a packed `protocol_header_t` on the little-endian target. -/
def headerBytes (h : protocol_header_t) : List Nat :=
  le16 h.magic ++ [h.msg_type % 256] ++ le16 h.sequence ++ le16 h.payload_len

/-- Embeds `build_header` in protocol.c: fills the header with the magic,
the message type, the current value of the 16-bit sequence counter and the
payload length, and post-increments the counter.  Returns the header
together with the new counter value. -/
def build_header (seq : Nat) (type : Nat) (payload_len : Nat) :
    protocol_header_t × Nat :=
  (⟨PROTOCOL_MAGIC, type, seq % 65536, payload_len % 65536⟩, (seq + 1) % 65536)

/-- Byte image of the packed `protocol_data_payload_t` followed by the
`memcpy` of `sample_count` 16-bit samples, as written by
`protocol_build_data_packet`. -/
def dataPayloadBytes (channel : Nat) (samples : List Nat) (sample_count : Nat) :
    List Nat :=
  [channel % 256, 0] ++ le16 (sample_count % 65536) ++
    (samples.take sample_count).flatMap (fun s => le16 (s % 65536))

/-- Embeds `protocol_build_data_packet`.  `seq` is the sequence counter
before the call; the `_null` flags model NULL pointer arguments.  Returns
the status, the bytes written to the buffer, and the counter after the
call. -/
def protocol_build_data_packet (seq : Nat) (buffer_null : Bool)
    (buffer_len : Nat) (channel : Nat) (samples_null : Bool)
    (samples : List Nat) (sample_count : Nat) (out_len_null : Bool) :
    protocol_status_t × List Nat × Nat :=
  if buffer_null || samples_null || out_len_null then
    (PROTO_STATUS_ERROR, [], seq)
  else
    let payload_size := 4 + sample_count * 2
    let total_size := 7 + payload_size
    if buffer_len < total_size then
      (PROTO_STATUS_BUFFER_TOO_SMALL, [], seq)
    else
      let hs := build_header seq MSG_TYPE_DATA payload_size
      (PROTO_STATUS_OK,
        headerBytes hs.1 ++ dataPayloadBytes channel samples sample_count,
        hs.2)

/-- Embeds `protocol_build_ping`: a bare 7-byte header of type PING. -/
def protocol_build_ping (seq : Nat) (buffer_null : Bool) (buffer_len : Nat)
    (out_len_null : Bool) : protocol_status_t × List Nat × Nat :=
  if buffer_null || out_len_null then
    (PROTO_STATUS_ERROR, [], seq)
  else if buffer_len < 7 then
    (PROTO_STATUS_BUFFER_TOO_SMALL, [], seq)
  else
    let hs := build_header seq MSG_TYPE_PING 0
    (PROTO_STATUS_OK, headerBytes hs.1, hs.2)

/-- Embeds `protocol_build_pong`: a bare 7-byte header of type PONG. -/
def protocol_build_pong (seq : Nat) (buffer_null : Bool) (buffer_len : Nat)
    (out_len_null : Bool) : protocol_status_t × List Nat × Nat :=
  if buffer_null || out_len_null then
    (PROTO_STATUS_ERROR, [], seq)
  else if buffer_len < 7 then
    (PROTO_STATUS_BUFFER_TOO_SMALL, [], seq)
  else
    let hs := build_header seq MSG_TYPE_PONG 0
    (PROTO_STATUS_OK, headerBytes hs.1, hs.2)

/-- The 12-byte status payload (`protocol_status_payload_t`, packed). -/
structure protocol_status_payload_t where
  acquiring : Nat
  channel : Nat
  threshold_mv : Nat
  uptime : Nat
  samples_sent : Nat
deriving Repr, DecidableEq

/-- Byte image of a packed `protocol_status_payload_t`. -/
def statusPayloadBytes (st : protocol_status_payload_t) : List Nat :=
  [st.acquiring % 256, st.channel % 256] ++ le16 st.threshold_mv ++
    le32 st.uptime ++ le32 st.samples_sent

/-- Embeds `protocol_build_status`: header of type STATUS followed by the
12-byte status payload. -/
def protocol_build_status (seq : Nat) (buffer_null : Bool) (buffer_len : Nat)
    (status_null : Bool) (st : protocol_status_payload_t)
    (out_len_null : Bool) : protocol_status_t × List Nat × Nat :=
  if buffer_null || status_null || out_len_null then
    (PROTO_STATUS_ERROR, [], seq)
  else if buffer_len < 19 then
    (PROTO_STATUS_BUFFER_TOO_SMALL, [], seq)
  else
    let hs := build_header seq MSG_TYPE_STATUS 12
    (PROTO_STATUS_OK, headerBytes hs.1 ++ statusPayloadBytes st, hs.2)

/-- The declared payload length of a byte slice: the little-endian 16-bit
value at offsets 5 and 6, as `protocol_parse_packet` reads it. -/
def declaredLen (data : List Nat) : Nat :=
  rd16 (data.getD 5 0) (data.getD 6 0)

/-- Embeds `protocol_parse_packet` for a call with all pointers non-null.
An input shorter than the 7-byte header takes the wildcard branch, the
C `len < sizeof(protocol_header_t)` check.  Otherwise the header fields
are the little-endian reads of bytes 0-6, as the `memcpy` into the
packed `protocol_header_t` produces on the target; the magic is
validated, then the total length is checked against the declared payload
length (`data.length` is `7 + rest.length`, so the C check
`len < sizeof(header) + payload_len` is written on `7 + rest.length`),
and the header is returned with the view into the payload region. -/
def protocol_parse_packet (data : List Nat) :
    protocol_status_t × Option (protocol_header_t × List Nat) :=
  match data with
  | b0 :: b1 :: b2 :: b3 :: b4 :: b5 :: b6 :: rest =>
    if rd16 b0 b1 ≠ PROTOCOL_MAGIC then
      (PROTO_STATUS_INVALID_MSG, none)
    else if 7 + rest.length < 7 + rd16 b5 b6 then
      (PROTO_STATUS_INVALID_MSG, none)
    else
      (PROTO_STATUS_OK,
        some (⟨rd16 b0 b1, b2 % 256, rd16 b3 b4, rd16 b5 b6⟩,
          rest.take (rd16 b5 b6)))
  | _ => (PROTO_STATUS_INVALID_MSG, none)

/-!
Acquisition module (`task_acquisition.c`).  The module statics
(`current_state`, `stats`, `current_channel`, `threshold_mv`,
`batch_size`, `sample_buffer` together with `sample_index`, and the
shared protocol sequence counter) are gathered into one state record.
The pending content of the fixed array `sample_buffer[0 .. sample_index)`
is modelled as a list, so `sample_index` is the list's length,
`sample_buffer[sample_index++] = v` is an append, and
`sample_index = 0` resets the list to `[]`.
-/

/-- Reference voltage in millivolts (`ADC_VREF_MV` in task_acquisition.h). -/
def ADC_VREF_MV : Nat := 3300

/-- Maximum batch size (`ACQUISITION_MAX_BATCH_SIZE` in task_acquisition.h). -/
def ACQUISITION_MAX_BATCH_SIZE : Nat := 500

/-- Number of ADC channels (`ADC_CHANNEL_MAX` in adc.h: channels 0..7). -/
def ADC_CHANNEL_MAX : Nat := 8

/-- Size of the static transmit buffer `tx_buffer[512]`. -/
def TX_BUFFER_SIZE : Nat := 512

/-- Acquisition state machine (`acquisition_state_t`). -/
inductive acquisition_state_t where
  | ACQ_STATE_IDLE
  | ACQ_STATE_RUNNING
  | ACQ_STATE_ERROR
deriving Repr, DecidableEq

open acquisition_state_t

/-- Statistics counters of the acquisition module (`acquisition_stats_t`). -/
structure acquisition_stats_t where
  samples_collected : Nat
  packets_sent : Nat
  errors : Nat
deriving Repr, DecidableEq

/-- The mutable statics of `task_acquisition.c` plus the protocol
sequence counter shared through `protocol_build_data_packet`. -/
structure AcqState where
  current_state : acquisition_state_t
  stats : acquisition_stats_t
  current_channel : Nat
  threshold_mv : Nat
  batch_size : Nat
  sample_buffer : List Nat
  seq : Nat
deriving Repr, DecidableEq

/-- Embeds `mv_to_adc`: `(uint16_t)((uint32_t)mv * 4095 / ADC_VREF_MV)`. -/
def mv_to_adc (mv : Nat) : Nat := mv * 4095 / ADC_VREF_MV % 65536

/-- Embeds `acquisition_set_threshold_mv`: rejects values above
`ADC_VREF_MV`, otherwise stores the threshold.  Returns the C `int`
result and the new state. -/
def acquisition_set_threshold_mv (s : AcqState) (mv : Nat) : Int × AcqState :=
  if mv > ADC_VREF_MV then (-1, s)
  else (0, { s with threshold_mv := mv })

/-- Embeds `acquisition_set_threshold_percent`: rejects values above 100,
otherwise stores `percent * ADC_VREF_MV / 100` as the threshold. -/
def acquisition_set_threshold_percent (s : AcqState) (percent : Nat) :
    Int × AcqState :=
  if percent > 100 then (-1, s)
  else (0, { s with threshold_mv := percent * ADC_VREF_MV / 100 % 65536 })

/-- Embeds `acquisition_set_channel`.  `adc_ok` models the result of the
`adc_deinit` / `adc_init` pair performed when the channel actually
changes; on its failure the module moves to `ACQ_STATE_ERROR`.  Note the
function never touches `sample_index` / `sample_buffer`. -/
def acquisition_set_channel (s : AcqState) (channel : Nat) (adc_ok : Bool) :
    Int × AcqState :=
  if channel ≥ ADC_CHANNEL_MAX then (-1, s)
  else if s.current_channel ≠ channel then
    if adc_ok then (0, { s with current_channel := channel })
    else (-1, { s with current_state := ACQ_STATE_ERROR })
  else (0, s)

/-- Embeds `acquisition_set_batch_size`: rejects 0 and values above
`ACQUISITION_MAX_BATCH_SIZE`; on acceptance stores the size and resets
the sample buffer (`sample_index = 0`). -/
def acquisition_set_batch_size (s : AcqState) (size : Nat) : Int × AcqState :=
  if size = 0 ∨ size > ACQUISITION_MAX_BATCH_SIZE then (-1, s)
  else (0, { s with batch_size := size, sample_buffer := [] })

/-- Embeds one iteration of the `acquisition_task` loop body in the case
where the state is RUNNING, the network is ready and `adc_read_sync`
succeeded with value `adc_value`; `send_ok` models the result of
`network_send_raw`.  Returns the new state and, when a DATA packet was
built and sent, the transmitted batch together with its wire bytes. -/
def acquisition_iter (s : AcqState) (adc_value : Nat) (send_ok : Bool) :
    AcqState × Option (List Nat × List Nat) :=
  let threshold_adc := mv_to_adc s.threshold_mv
  if adc_value ≥ threshold_adc then
    let buf := s.sample_buffer ++ [adc_value]
    let s1 := { s with
      sample_buffer := buf,
      stats := { s.stats with samples_collected := s.stats.samples_collected + 1 } }
    if buf.length ≥ s1.batch_size then
      let r := protocol_build_data_packet s1.seq false TX_BUFFER_SIZE
        s1.current_channel false buf buf.length false
      if r.1 = PROTO_STATUS_OK then
        if send_ok then
          ({ s1 with
              sample_buffer := [],
              seq := r.2.2,
              stats := { s1.stats with
                packets_sent := s1.stats.packets_sent + 1 } },
            some (buf, r.2.1))
        else
          ({ s1 with
              sample_buffer := [],
              seq := r.2.2,
              stats := { s1.stats with errors := s1.stats.errors + 1 } },
            none)
      else
        ({ s1 with
            sample_buffer := [],
            seq := r.2.2,
            stats := { s1.stats with errors := s1.stats.errors + 1 } },
          none)
    else (s1, none)
  else (s, none)

/-- Events the acquisition state reacts to: a loop iteration processing a
successful ADC read (with the send outcome), a failed ADC read (which
only increments `errors`), and the configuration setters invoked from
the network task's command handlers. -/
inductive AcqEvent where
  | sample (v : Nat) (send_ok : Bool)
  | sampleError
  | setThresholdMv (mv : Nat)
  | setThresholdPercent (p : Nat)
  | setBatchSize (n : Nat)
  | setChannel (ch : Nat) (adc_ok : Bool)
deriving Repr, DecidableEq

/-- One event applied to the acquisition state; the option is the
transmitted batch and its wire bytes, when the event caused one. -/
def acqStep (s : AcqState) (e : AcqEvent) :
    AcqState × Option (List Nat × List Nat) :=
  match e with
  | .sample v send_ok => acquisition_iter s v send_ok
  | .sampleError =>
      ({ s with stats := { s.stats with errors := s.stats.errors + 1 } }, none)
  | .setThresholdMv mv => ((acquisition_set_threshold_mv s mv).2, none)
  | .setThresholdPercent p => ((acquisition_set_threshold_percent s p).2, none)
  | .setBatchSize n => ((acquisition_set_batch_size s n).2, none)
  | .setChannel ch adc_ok => ((acquisition_set_channel s ch adc_ok).2, none)

/-- Runs a trace of events, collecting the transmitted DATA batches (each
with its wire bytes) in order. -/
def acqRun (s : AcqState) : List AcqEvent → AcqState × List (List Nat × List Nat)
  | [] => (s, [])
  | e :: es =>
    let r := acqStep s e
    let rest := acqRun r.1 es
    (rest.1, (match r.2 with | some bp => [bp] | none => []) ++ rest.2)

/-- The acquisition state right after `acquisition_start` has reset the
batch and moved to RUNNING: empty sample buffer, with the configured
threshold, channel, batch size, sequence counter and statistics. -/
def acqStart (thr ch bs seq : Nat) (st : acquisition_stats_t) : AcqState :=
  ⟨ACQ_STATE_RUNNING, st, ch, thr, bs, [], seq⟩

/-! Helper lemmas. -/

/-- Reading back a 16-bit little-endian serialization recovers the value. -/
theorem rd16_le16 (v : Nat) (h : v < 65536) :
    rd16 (v % 256) (v / 256 % 256) = v := by
  unfold rd16
  omega

/-- The header serializes to an explicit 7-byte list. -/
theorem headerBytes_eq (h : protocol_header_t) :
    headerBytes h = h.magic % 256 :: h.magic / 256 % 256 :: h.msg_type % 256 ::
      h.sequence % 256 :: h.sequence / 256 % 256 :: h.payload_len % 256 ::
      h.payload_len / 256 % 256 :: [] := rfl

/-- Any 16-bit serialization is two bytes long. -/
theorem length_le16 (v : Nat) : (le16 v).length = 2 := rfl

/-- Length of the serialized sample array. -/
theorem length_flatMap_le16 (l : List Nat) :
    (l.flatMap fun s => le16 (s % 65536)).length = 2 * l.length := by
  induction l with
  | nil => rfl
  | cons a t ih =>
    rw [List.flatMap_cons, List.length_append, ih, length_le16,
      List.length_cons]
    omega

/-- Length of a serialized data payload. -/
theorem length_dataPayloadBytes (ch : Nat) (samples : List Nat) (sc : Nat) :
    (dataPayloadBytes ch samples sc).length = 4 + 2 * min sc samples.length := by
  simp only [dataPayloadBytes, List.length_append, List.length_cons,
    List.length_nil, length_le16, length_flatMap_le16, List.length_take]

/-- Parsing a buffer made of a well-formed header followed by exactly the
declared payload recovers the header and the payload. -/
theorem parse_headerBytes_append (h : protocol_header_t) (payload : List Nat)
    (hm : h.magic = PROTOCOL_MAGIC) (ht : h.msg_type < 256)
    (hs : h.sequence < 65536) (hp : h.payload_len < 65536)
    (hl : payload.length = h.payload_len) :
    protocol_parse_packet (headerBytes h ++ payload) =
      (PROTO_STATUS_OK, some (h, payload)) := by
  obtain ⟨m, t, sq, pl⟩ := h
  simp only at hm ht hs hp hl
  subst hm
  subst hl
  rw [headerBytes_eq]
  simp only [List.cons_append, List.nil_append, protocol_parse_packet]
  rw [rd16_le16 _ (by decide), rd16_le16 _ hs, rd16_le16 _ hp]
  rw [if_neg (by simp), if_neg (by omega), List.take_length]
  have ht2 : t % 256 % 256 = t := by omega
  rw [ht2]

/-- Parsing a well-formed bare header with declared payload length zero. -/
theorem parse_headerBytes_nil (h : protocol_header_t)
    (hm : h.magic = PROTOCOL_MAGIC) (ht : h.msg_type < 256)
    (hs : h.sequence < 65536) (hpl : h.payload_len = 0) :
    protocol_parse_packet (headerBytes h) = (PROTO_STATUS_OK, some (h, [])) := by
  have hx := parse_headerBytes_append h [] hm ht hs (by omega) (by simp [hpl])
  rw [List.append_nil] at hx
  exact hx

/-! Claim theorems. -/

/-- C9: `mv_to_adc` computes `mv * 4095 / 3300` in exact truncating
integer arithmetic on the threshold range, with
`mv_to_adc 0 = 0`, `mv_to_adc 3300 = 4095` and `mv_to_adc 1650 = 2047`. -/
theorem C9_mv_to_adc_exact :
    (∀ mv : Nat, mv ≤ 3300 → mv_to_adc mv = mv * 4095 / 3300) ∧
    mv_to_adc 0 = 0 ∧ mv_to_adc 3300 = 4095 ∧ mv_to_adc 1650 = 2047 := by
  refine ⟨fun mv h => ?_, by decide, by decide, by decide⟩
  unfold mv_to_adc ADC_VREF_MV
  omega

/-- Witness for C9 at `mv = 1000`. -/
theorem C9_mv_to_adc_exact_witness : mv_to_adc 1000 = 1000 * 4095 / 3300 :=
  C9_mv_to_adc_exact.1 1000 (by decide)

/-- C8: `acquisition_set_batch_size` rejects 0 and every value above 500
leaving the whole state unchanged, and accepts every value in `[1, 500]`,
storing it and resetting the in-progress batch to empty. -/
theorem C8_set_batch_size :
    ∀ (s : AcqState) (n : Nat),
      ((n = 0 ∨ n > 500) → acquisition_set_batch_size s n = (-1, s)) ∧
      (1 ≤ n → n ≤ 500 → acquisition_set_batch_size s n =
        (0, { s with batch_size := n, sample_buffer := [] })) := by
  intro s n
  constructor
  · intro h
    unfold acquisition_set_batch_size ACQUISITION_MAX_BATCH_SIZE
    rw [if_pos (by omega)]
  · intro h1 h2
    unfold acquisition_set_batch_size ACQUISITION_MAX_BATCH_SIZE
    rw [if_neg (by omega)]

/-- Witness for C8: rejection of 0 and 501, acceptance of 1, on a
concrete state. -/
theorem C8_set_batch_size_witness :
    acquisition_set_batch_size
        ⟨ACQ_STATE_IDLE, ⟨0, 0, 0⟩, 0, 1650, 100, [7], 3⟩ 0 =
      (-1, ⟨ACQ_STATE_IDLE, ⟨0, 0, 0⟩, 0, 1650, 100, [7], 3⟩) ∧
    acquisition_set_batch_size
        ⟨ACQ_STATE_IDLE, ⟨0, 0, 0⟩, 0, 1650, 100, [7], 3⟩ 501 =
      (-1, ⟨ACQ_STATE_IDLE, ⟨0, 0, 0⟩, 0, 1650, 100, [7], 3⟩) ∧
    acquisition_set_batch_size
        ⟨ACQ_STATE_IDLE, ⟨0, 0, 0⟩, 0, 1650, 100, [7], 3⟩ 1 =
      (0, ⟨ACQ_STATE_IDLE, ⟨0, 0, 0⟩, 0, 1650, 1, [], 3⟩) :=
  ⟨(C8_set_batch_size _ 0).1 (Or.inl rfl),
   (C8_set_batch_size _ 501).1 (Or.inr (by decide)),
   (C8_set_batch_size _ 1).2 (by decide) (by decide)⟩

/-- C2 fails on the code: a successful `acquisition_set_channel` to a new
valid channel returns 0 and switches the channel, but the pending sample
buffer is NOT reset — the sample collected before the change is still
there. -/
theorem C2_set_channel_counterexample :
    (acquisition_set_channel
        ⟨ACQ_STATE_RUNNING, ⟨1, 0, 0⟩, 0, 1650, 100, [2000], 0⟩ 1 true).1 = 0 ∧
    (acquisition_set_channel
        ⟨ACQ_STATE_RUNNING, ⟨1, 0, 0⟩, 0, 1650, 100, [2000], 0⟩ 1
        true).2.current_channel = 1 ∧
    (acquisition_set_channel
        ⟨ACQ_STATE_RUNNING, ⟨1, 0, 0⟩, 0, 1650, 100, [2000], 0⟩ 1
        true).2.sample_buffer ≠ [] := by
  decide

/-- C2 amended: a successful `acquisition_set_channel` call with a valid
channel (ADC reinitialization succeeding) returns 0 and changes only the
current channel; the in-progress batch is kept, not reset, so pending
samples collected before the change remain in the buffer. -/
theorem C2_set_channel_keeps_batch :
    ∀ (s : AcqState) (ch : Nat), ch < ADC_CHANNEL_MAX →
      acquisition_set_channel s ch true = (0, { s with current_channel := ch }) := by
  intro s ch h
  unfold acquisition_set_channel
  rw [if_neg (by omega)]
  by_cases hc : s.current_channel = ch
  · rw [if_neg (by simp [hc])]
    subst hc
    simp
  · rw [if_pos hc]
    simp

/-- Witness for C2 amended: switching channel 0 to 3 keeps the pending
sample. -/
theorem C2_set_channel_keeps_batch_witness :
    acquisition_set_channel
        ⟨ACQ_STATE_RUNNING, ⟨1, 0, 0⟩, 0, 1650, 100, [2000], 0⟩ 3 true =
      (0, ⟨ACQ_STATE_RUNNING, ⟨1, 0, 0⟩, 3, 1650, 100, [2000], 0⟩) :=
  C2_set_channel_keeps_batch
    ⟨ACQ_STATE_RUNNING, ⟨1, 0, 0⟩, 0, 1650, 100, [2000], 0⟩ 3 (by decide)

/-- C1 fails on the code: `protocol_build_data_packet` never checks the
payload against `PROTOCOL_MAX_DATA_SIZE`.  With non-null pointers, a
2048-byte buffer and 699 samples the payload is `4 + 2 * 699 = 1402`
bytes, above the 1400-byte limit, yet the call returns
`PROTO_STATUS_OK` and produces a 1409-byte packet instead of failing
with `PROTO_STATUS_ERROR`. -/
theorem C1_payload_limit_unchecked :
    (protocol_build_data_packet 0 false 2048 0 false
        (List.replicate 699 0) 699 false).1 = PROTO_STATUS_OK ∧
    (protocol_build_data_packet 0 false 2048 0 false
        (List.replicate 699 0) 699 false).2.1.length = 1409 ∧
    PROTOCOL_MAX_DATA_SIZE < 4 + 2 * 699 := by
  refine ⟨rfl, ?_, by decide⟩
  decide

/-- C5: every builder advances the 16-bit sequence counter exactly once
(mod 65536) when it succeeds, and leaves it unchanged when it fails. -/
theorem C5_sequence_counter :
    ∀ (seq : Nat) (bn sn stn onl : Bool) (blen ch sc : Nat)
      (samples : List Nat) (st : protocol_status_payload_t),
      (protocol_build_ping seq bn blen onl).2.2 =
        (if (protocol_build_ping seq bn blen onl).1 = PROTO_STATUS_OK
          then (seq + 1) % 65536 else seq) ∧
      (protocol_build_pong seq bn blen onl).2.2 =
        (if (protocol_build_pong seq bn blen onl).1 = PROTO_STATUS_OK
          then (seq + 1) % 65536 else seq) ∧
      (protocol_build_data_packet seq bn blen ch sn samples sc onl).2.2 =
        (if (protocol_build_data_packet seq bn blen ch sn samples sc onl).1 =
            PROTO_STATUS_OK
          then (seq + 1) % 65536 else seq) ∧
      (protocol_build_status seq bn blen stn st onl).2.2 =
        (if (protocol_build_status seq bn blen stn st onl).1 = PROTO_STATUS_OK
          then (seq + 1) % 65536 else seq) := by
  intro seq bn sn stn onl blen ch sc samples st
  refine ⟨?_, ?_, ?_, ?_⟩ <;>
    · simp only [protocol_build_ping, protocol_build_pong,
        protocol_build_data_packet, protocol_build_status, build_header]
      split
      · simp
      · split <;> simp

/-- C6: every successfully built packet begins with the bytes
`0x7A` then `0xDA`, the magic `0xDA7A` serialized low byte first. -/
theorem C6_magic_bytes_first :
    ∀ (seq : Nat) (bn sn stn onl : Bool) (blen ch sc : Nat)
      (samples : List Nat) (st : protocol_status_payload_t),
      ((protocol_build_ping seq bn blen onl).1 = PROTO_STATUS_OK →
        (protocol_build_ping seq bn blen onl).2.1.take 2 = [0x7A, 0xDA]) ∧
      ((protocol_build_pong seq bn blen onl).1 = PROTO_STATUS_OK →
        (protocol_build_pong seq bn blen onl).2.1.take 2 = [0x7A, 0xDA]) ∧
      ((protocol_build_data_packet seq bn blen ch sn samples sc onl).1 =
          PROTO_STATUS_OK →
        (protocol_build_data_packet seq bn blen ch sn samples sc
          onl).2.1.take 2 = [0x7A, 0xDA]) ∧
      ((protocol_build_status seq bn blen stn st onl).1 = PROTO_STATUS_OK →
        (protocol_build_status seq bn blen stn st onl).2.1.take 2 =
          [0x7A, 0xDA]) := by
  intro seq bn sn stn onl blen ch sc samples st
  refine ⟨?_, ?_, ?_, ?_⟩ <;>
    · simp only [protocol_build_ping, protocol_build_pong,
        protocol_build_data_packet, protocol_build_status, build_header,
        headerBytes, le16, PROTOCOL_MAGIC]
      split
      · simp
      · split <;> simp

/-- Witness for C6 on all four builders at concrete arguments. -/
theorem C6_magic_bytes_first_witness :
    (protocol_build_ping 0 false 7 false).2.1.take 2 = [0x7A, 0xDA] ∧
    (protocol_build_pong 0 false 7 false).2.1.take 2 = [0x7A, 0xDA] ∧
    (protocol_build_data_packet 0 false 64 2 false [9] 1 false).2.1.take 2 =
      [0x7A, 0xDA] ∧
    (protocol_build_status 0 false 19 false ⟨1, 0, 1650, 3, 4⟩
        false).2.1.take 2 = [0x7A, 0xDA] :=
  ⟨(C6_magic_bytes_first 0 false false false false 7 2 1 [9]
      ⟨1, 0, 1650, 3, 4⟩).1 (by decide),
   (C6_magic_bytes_first 0 false false false false 7 2 1 [9]
      ⟨1, 0, 1650, 3, 4⟩).2.1 (by decide),
   (C6_magic_bytes_first 0 false false false false 64 2 1 [9]
      ⟨1, 0, 1650, 3, 4⟩).2.2.1 (by decide),
   (C6_magic_bytes_first 0 false false false false 19 2 1 [9]
      ⟨1, 0, 1650, 3, 4⟩).2.2.2 (by decide)⟩

/-- C3: parsing the exact bytes of a successfully built packet succeeds
and returns the header the builder wrote (magic, message type, sequence,
payload length) and a payload view byte-identical to the built payload;
a built ping packet is exactly 7 bytes long. -/
theorem C3_build_parse_roundtrip :
    ∀ seq : Nat,
      (∀ blen : Nat, 7 ≤ blen →
        (protocol_build_ping seq false blen false).1 = PROTO_STATUS_OK ∧
        (protocol_build_ping seq false blen false).2.1.length = 7 ∧
        protocol_parse_packet (protocol_build_ping seq false blen false).2.1 =
          (PROTO_STATUS_OK,
            some (⟨PROTOCOL_MAGIC, MSG_TYPE_PING, seq % 65536, 0⟩, []))) ∧
      (∀ blen : Nat, 7 ≤ blen →
        (protocol_build_pong seq false blen false).1 = PROTO_STATUS_OK ∧
        protocol_parse_packet (protocol_build_pong seq false blen false).2.1 =
          (PROTO_STATUS_OK,
            some (⟨PROTOCOL_MAGIC, MSG_TYPE_PONG, seq % 65536, 0⟩, []))) ∧
      (∀ (blen ch sc : Nat) (samples : List Nat),
        11 + sc * 2 ≤ blen → sc ≤ samples.length → 4 + sc * 2 < 65536 →
        (protocol_build_data_packet seq false blen ch false samples sc
            false).1 = PROTO_STATUS_OK ∧
        protocol_parse_packet
            (protocol_build_data_packet seq false blen ch false samples sc
              false).2.1 =
          (PROTO_STATUS_OK,
            some (⟨PROTOCOL_MAGIC, MSG_TYPE_DATA, seq % 65536, 4 + sc * 2⟩,
              dataPayloadBytes ch samples sc))) ∧
      (∀ (blen : Nat) (st : protocol_status_payload_t), 19 ≤ blen →
        (protocol_build_status seq false blen false st false).1 =
          PROTO_STATUS_OK ∧
        protocol_parse_packet
            (protocol_build_status seq false blen false st false).2.1 =
          (PROTO_STATUS_OK,
            some (⟨PROTOCOL_MAGIC, MSG_TYPE_STATUS, seq % 65536, 12⟩,
              statusPayloadBytes st))) := by
  intro seq
  refine ⟨?_, ?_, ?_, ?_⟩
  · intro blen hb
    have hnot : ¬ (blen < 7) := by omega
    have hred : protocol_build_ping seq false blen false =
        (PROTO_STATUS_OK,
          headerBytes ⟨PROTOCOL_MAGIC, MSG_TYPE_PING, seq % 65536, 0⟩,
          (seq + 1) % 65536) := by
      simp [protocol_build_ping, build_header, hnot]
    rw [hred]
    exact ⟨rfl, rfl,
      parse_headerBytes_nil _ rfl (show MSG_TYPE_PING < 256 by decide)
        (Nat.mod_lt _ (by decide)) rfl⟩
  · intro blen hb
    have hnot : ¬ (blen < 7) := by omega
    have hred : protocol_build_pong seq false blen false =
        (PROTO_STATUS_OK,
          headerBytes ⟨PROTOCOL_MAGIC, MSG_TYPE_PONG, seq % 65536, 0⟩,
          (seq + 1) % 65536) := by
      simp [protocol_build_pong, build_header, hnot]
    rw [hred]
    exact ⟨rfl,
      parse_headerBytes_nil _ rfl (show MSG_TYPE_PONG < 256 by decide)
        (Nat.mod_lt _ (by decide)) rfl⟩
  · intro blen ch sc samples hb hsc hfit
    have hnot : ¬ (blen < 7 + (4 + sc * 2)) := by omega
    have hmod : (4 + sc * 2) % 65536 = 4 + sc * 2 := Nat.mod_eq_of_lt hfit
    have hred : protocol_build_data_packet seq false blen ch false samples sc
        false =
        (PROTO_STATUS_OK,
          headerBytes ⟨PROTOCOL_MAGIC, MSG_TYPE_DATA, seq % 65536,
              4 + sc * 2⟩ ++
            dataPayloadBytes ch samples sc,
          (seq + 1) % 65536) := by
      simp [protocol_build_data_packet, build_header, hnot, hmod]
    rw [hred]
    refine ⟨rfl, ?_⟩
    refine parse_headerBytes_append _ _ rfl
      (show MSG_TYPE_DATA < 256 by decide) (Nat.mod_lt _ (by decide))
      (show 4 + sc * 2 < 65536 from hfit) ?_
    rw [length_dataPayloadBytes]
    show 4 + 2 * min sc samples.length = 4 + sc * 2
    omega
  · intro blen st hb
    have hnot : ¬ (blen < 19) := by omega
    have hred : protocol_build_status seq false blen false st false =
        (PROTO_STATUS_OK,
          headerBytes ⟨PROTOCOL_MAGIC, MSG_TYPE_STATUS, seq % 65536, 12⟩ ++
            statusPayloadBytes st,
          (seq + 1) % 65536) := by
      simp [protocol_build_status, build_header, hnot]
    rw [hred]
    exact ⟨rfl,
      parse_headerBytes_append _ _ rfl (show MSG_TYPE_STATUS < 256 by decide)
        (Nat.mod_lt _ (by decide)) (show (12 : Nat) < 65536 by decide) rfl⟩

/-- Witness for C3: round-trips of concrete ping, pong, data and status
builds at sequence 5. -/
theorem C3_build_parse_roundtrip_witness :
    ((protocol_build_ping 5 false 7 false).1 = PROTO_STATUS_OK ∧
      (protocol_build_ping 5 false 7 false).2.1.length = 7 ∧
      protocol_parse_packet (protocol_build_ping 5 false 7 false).2.1 =
        (PROTO_STATUS_OK,
          some (⟨PROTOCOL_MAGIC, MSG_TYPE_PING, 5 % 65536, 0⟩, []))) ∧
    ((protocol_build_pong 5 false 7 false).1 = PROTO_STATUS_OK ∧
      protocol_parse_packet (protocol_build_pong 5 false 7 false).2.1 =
        (PROTO_STATUS_OK,
          some (⟨PROTOCOL_MAGIC, MSG_TYPE_PONG, 5 % 65536, 0⟩, []))) ∧
    ((protocol_build_data_packet 5 false 64 2 false [100, 2500] 2
        false).1 = PROTO_STATUS_OK ∧
      protocol_parse_packet
          (protocol_build_data_packet 5 false 64 2 false [100, 2500] 2
            false).2.1 =
        (PROTO_STATUS_OK,
          some (⟨PROTOCOL_MAGIC, MSG_TYPE_DATA, 5 % 65536, 4 + 2 * 2⟩,
            dataPayloadBytes 2 [100, 2500] 2))) ∧
    ((protocol_build_status 5 false 19 false ⟨1, 2, 1650, 77, 12345⟩
        false).1 = PROTO_STATUS_OK ∧
      protocol_parse_packet
          (protocol_build_status 5 false 19 false ⟨1, 2, 1650, 77, 12345⟩
            false).2.1 =
        (PROTO_STATUS_OK,
          some (⟨PROTOCOL_MAGIC, MSG_TYPE_STATUS, 5 % 65536, 12⟩,
            statusPayloadBytes ⟨1, 2, 1650, 77, 12345⟩))) :=
  ⟨(C3_build_parse_roundtrip 5).1 7 (by decide),
   (C3_build_parse_roundtrip 5).2.1 7 (by decide),
   (C3_build_parse_roundtrip 5).2.2.1 64 2 2 [100, 2500] (by decide)
     (by decide) (by decide),
   (C3_build_parse_roundtrip 5).2.2.2 19 ⟨1, 2, 1650, 77, 12345⟩
     (by decide)⟩

/-- C4: `protocol_parse_packet` fails with `InvalidMessage` on inputs
shorter than 7 bytes, on a wrong little-endian magic in the first two
bytes, and on a total length below 7 plus the declared payload length;
otherwise it succeeds, and trailing bytes beyond the declared payload
length never affect the result. -/
theorem C4_parse_contract :
    ∀ data : List Nat,
      (data.length < 7 →
        protocol_parse_packet data = (PROTO_STATUS_INVALID_MSG, none)) ∧
      (7 ≤ data.length →
        rd16 (data.getD 0 0) (data.getD 1 0) ≠ PROTOCOL_MAGIC →
        protocol_parse_packet data = (PROTO_STATUS_INVALID_MSG, none)) ∧
      (7 ≤ data.length →
        rd16 (data.getD 0 0) (data.getD 1 0) = PROTOCOL_MAGIC →
        data.length < 7 + declaredLen data →
        protocol_parse_packet data = (PROTO_STATUS_INVALID_MSG, none)) ∧
      (7 ≤ data.length →
        rd16 (data.getD 0 0) (data.getD 1 0) = PROTOCOL_MAGIC →
        7 + declaredLen data ≤ data.length →
        (protocol_parse_packet data).1 = PROTO_STATUS_OK) ∧
      (7 ≤ data.length →
        rd16 (data.getD 0 0) (data.getD 1 0) = PROTOCOL_MAGIC →
        7 + declaredLen data ≤ data.length →
        ∀ extra : List Nat,
          protocol_parse_packet (data ++ extra) =
            protocol_parse_packet data) := by
  intro data
  match data with
  | [] => exact ⟨fun _ => rfl, by simp, by simp, by simp, by simp⟩
  | [b0] => exact ⟨fun _ => rfl, by simp, by simp, by simp, by simp⟩
  | [b0, b1] => exact ⟨fun _ => rfl, by simp, by simp, by simp, by simp⟩
  | [b0, b1, b2] => exact ⟨fun _ => rfl, by simp, by simp, by simp, by simp⟩
  | [b0, b1, b2, b3] => exact ⟨fun _ => rfl, by simp, by simp, by simp, by simp⟩
  | [b0, b1, b2, b3, b4] =>
    exact ⟨fun _ => rfl, by simp, by simp, by simp, by simp⟩
  | [b0, b1, b2, b3, b4, b5] =>
    exact ⟨fun _ => rfl, by simp, by simp, by simp, by simp⟩
  | b0 :: b1 :: b2 :: b3 :: b4 :: b5 :: b6 :: rest =>
    have hdl : declaredLen (b0 :: b1 :: b2 :: b3 :: b4 :: b5 :: b6 :: rest) =
        rd16 b5 b6 := rfl
    have hlen : (b0 :: b1 :: b2 :: b3 :: b4 :: b5 :: b6 :: rest).length =
        rest.length + 7 := by simp
    refine ⟨fun h => absurd h (by simp only [List.length_cons]; omega),
      ?_, ?_, ?_, ?_⟩
    · intro _ hmagic
      have hb : rd16 b0 b1 ≠ PROTOCOL_MAGIC := hmagic
      simp only [protocol_parse_packet]
      rw [if_pos hb]
    · intro _ hmagic hshort
      have hb : rd16 b0 b1 = PROTOCOL_MAGIC := hmagic
      rw [hdl, hlen] at hshort
      simp only [protocol_parse_packet]
      rw [if_neg (fun hn => hn hb), if_pos (by omega)]
    · intro _ hmagic hfits
      have hb : rd16 b0 b1 = PROTOCOL_MAGIC := hmagic
      rw [hdl, hlen] at hfits
      simp only [protocol_parse_packet]
      rw [if_neg (fun hn => hn hb), if_neg (by omega)]
    · intro _ hmagic hfits extra
      have hb : rd16 b0 b1 = PROTOCOL_MAGIC := hmagic
      rw [hdl, hlen] at hfits
      simp only [List.cons_append, protocol_parse_packet]
      rw [if_neg (fun hn => hn hb)]
      rw [if_neg (show ¬ (7 + (rest ++ extra).length < 7 + rd16 b5 b6) by
        simp only [List.length_append]; omega)]
      rw [if_neg (show ¬ (7 + rest.length < 7 + rd16 b5 b6) by omega)]
      rw [List.take_append_of_le_length (by omega)]
      rw [if_neg (fun hn => hn hb)]

/-- Witness for C4 on concrete inputs: a short input, a wrong magic, a
truncated payload, a valid packet, and a valid packet with trailing
bytes. -/
theorem C4_parse_contract_witness :
    protocol_parse_packet [1, 2, 3] = (PROTO_STATUS_INVALID_MSG, none) ∧
    protocol_parse_packet [1, 2, 3, 4, 5, 6, 7] =
      (PROTO_STATUS_INVALID_MSG, none) ∧
    protocol_parse_packet [0x7A, 0xDA, 1, 0, 0, 5, 0] =
      (PROTO_STATUS_INVALID_MSG, none) ∧
    (protocol_parse_packet [0x7A, 0xDA, 1, 0, 0, 1, 0, 9]).1 =
      PROTO_STATUS_OK ∧
    protocol_parse_packet ([0x7A, 0xDA, 1, 0, 0, 1, 0, 9] ++ [4, 5]) =
      protocol_parse_packet [0x7A, 0xDA, 1, 0, 0, 1, 0, 9] :=
  ⟨(C4_parse_contract [1, 2, 3]).1 (by decide),
   (C4_parse_contract [1, 2, 3, 4, 5, 6, 7]).2.1 (by decide) (by decide),
   (C4_parse_contract [0x7A, 0xDA, 1, 0, 0, 5, 0]).2.2.1 (by decide)
     (by decide) (by decide),
   (C4_parse_contract [0x7A, 0xDA, 1, 0, 0, 1, 0, 9]).2.2.2.1 (by decide)
     (by decide) (by decide),
   (C4_parse_contract [0x7A, 0xDA, 1, 0, 0, 1, 0, 9]).2.2.2.2 (by decide)
     (by decide) (by decide) [4, 5]⟩

/-- One acquisition event preserves the threshold and the property that
every pending sample is at or above the fixed threshold, and any batch it
transmits consists of such samples only, provided the event does not
change the threshold. -/
theorem acqStep_threshold (thr : Nat) (s : AcqState) (e : AcqEvent)
    (hthr : s.threshold_mv = thr)
    (hbuf : ∀ x ∈ s.sample_buffer, mv_to_adc thr ≤ x)
    (hn1 : ∀ mv, e ≠ AcqEvent.setThresholdMv mv)
    (hn2 : ∀ p, e ≠ AcqEvent.setThresholdPercent p) :
    (acqStep s e).1.threshold_mv = thr ∧
    (∀ x ∈ (acqStep s e).1.sample_buffer, mv_to_adc thr ≤ x) ∧
    (∀ bp, (acqStep s e).2 = some bp → ∀ x ∈ bp.1, mv_to_adc thr ≤ x) := by
  cases e with
  | sample v send_ok =>
    simp only [acqStep, acquisition_iter]
    split_ifs with h1 h2 h3 h4
    · have hv : mv_to_adc thr ≤ v := hthr ▸ h1
      refine ⟨hthr, by simp, ?_⟩
      intro bp hbp x hx
      rw [Option.some.injEq] at hbp
      subst hbp
      simp only at hx
      rcases List.mem_append.1 hx with h | h
      · exact hbuf x h
      · rw [List.mem_singleton] at h
        subst h
        exact hv
    · exact ⟨hthr, by simp, by simp⟩
    · exact ⟨hthr, by simp, by simp⟩
    · have hv : mv_to_adc thr ≤ v := hthr ▸ h1
      refine ⟨hthr, ?_, by simp⟩
      intro x hx
      simp only at hx
      rcases List.mem_append.1 hx with h | h
      · exact hbuf x h
      · rw [List.mem_singleton] at h
        subst h
        exact hv
    · exact ⟨hthr, hbuf, by simp⟩
  | sampleError => exact ⟨hthr, hbuf, by simp [acqStep]⟩
  | setThresholdMv mv => exact absurd rfl (hn1 mv)
  | setThresholdPercent p => exact absurd rfl (hn2 p)
  | setBatchSize n =>
    simp only [acqStep, acquisition_set_batch_size]
    split_ifs with h
    · exact ⟨hthr, hbuf, by simp⟩
    · exact ⟨hthr, by simp, by simp⟩
  | setChannel ch adc_ok =>
    simp only [acqStep, acquisition_set_channel]
    split_ifs with h1 h2 h3
    · exact ⟨hthr, hbuf, by simp⟩
    · exact ⟨hthr, hbuf, by simp⟩
    · exact ⟨hthr, hbuf, by simp⟩
    · exact ⟨hthr, hbuf, by simp⟩

/-- Over a whole run without threshold changes, every transmitted batch
consists of samples at or above the threshold. -/
theorem acqRun_threshold (thr : Nat) (es : List AcqEvent) :
    ∀ s : AcqState, s.threshold_mv = thr →
    (∀ x ∈ s.sample_buffer, mv_to_adc thr ≤ x) →
    (∀ mv, AcqEvent.setThresholdMv mv ∉ es) →
    (∀ p, AcqEvent.setThresholdPercent p ∉ es) →
    ∀ bp ∈ (acqRun s es).2, ∀ x ∈ bp.1, mv_to_adc thr ≤ x := by
  induction es with
  | nil =>
    intro s _ _ _ _ bp hbp
    simp [acqRun] at hbp
  | cons e es ih =>
    intro s hthr hbuf hn1 hn2 bp hbp
    have he1 : ∀ mv, e ≠ AcqEvent.setThresholdMv mv := by
      intro mv heq
      exact hn1 mv (heq ▸ List.mem_cons_self e es)
    have he2 : ∀ p, e ≠ AcqEvent.setThresholdPercent p := by
      intro p heq
      exact hn2 p (heq ▸ List.mem_cons_self e es)
    obtain ⟨h1, h2, h3⟩ := acqStep_threshold thr s e hthr hbuf he1 he2
    simp only [acqRun] at hbp
    rw [List.mem_append] at hbp
    cases hbp with
    | inl h =>
      cases hout : (acqStep s e).2 with
      | none =>
        rw [hout] at h
        simp at h
      | some bp0 =>
        rw [hout] at h
        simp only [List.mem_singleton] at h
        subst h
        exact h3 bp (by rw [hout])
    | inr h =>
      exact ih (acqStep s e).1 h1 h2
        (fun mv hm => hn1 mv (List.mem_cons_of_mem _ hm))
        (fun p hm => hn2 p (List.mem_cons_of_mem _ hm)) bp h

/-- C7 fails on the code: with threshold 0 and batch size 2, the sample
100 is accepted, then the threshold is raised to 3300 (in ADC units,
4095) and the sample 4095 completes and transmits the batch.  The
transmitted DATA packet contains the sample 100, strictly below
`mv_to_adc` of the configured threshold, so the claim as stated is
false. -/
theorem C7_counterexample :
    (acqRun (acqStart 0 0 2 0 ⟨0, 0, 0⟩)
        [AcqEvent.sample 100 true, AcqEvent.setThresholdMv 3300,
          AcqEvent.sample 4095 true]).1.threshold_mv = 3300 ∧
    ¬ (∀ bp ∈ (acqRun (acqStart 0 0 2 0 ⟨0, 0, 0⟩)
          [AcqEvent.sample 100 true, AcqEvent.setThresholdMv 3300,
            AcqEvent.sample 4095 true]).2,
        ∀ x ∈ bp.1,
          mv_to_adc
              (acqRun (acqStart 0 0 2 0 ⟨0, 0, 0⟩)
                  [AcqEvent.sample 100 true, AcqEvent.setThresholdMv 3300,
                    AcqEvent.sample 4095 true]).1.threshold_mv ≤ x) := by
  decide

/-- C7 amended: in every DATA packet transmitted by the acquisition
loop, every contained sample is at or above `mv_to_adc` of the threshold
in effect when the sample was accepted; in particular, whenever the
configured threshold is not changed during the run, every contained
sample s satisfies `mv_to_adc threshold_mv ≤ s`.  (If the threshold is
raised mid-batch, samples accepted under the earlier threshold remain in
the batch — the counterexample above.) -/
theorem C7_threshold_filter :
    ∀ (thr ch bs seq : Nat) (st : acquisition_stats_t) (es : List AcqEvent),
      (∀ mv, AcqEvent.setThresholdMv mv ∉ es) →
      (∀ p, AcqEvent.setThresholdPercent p ∉ es) →
      ∀ bp ∈ (acqRun (acqStart thr ch bs seq st) es).2, ∀ x ∈ bp.1,
        mv_to_adc thr ≤ x :=
  fun thr ch bs seq st es h1 h2 =>
    acqRun_threshold thr es (acqStart thr ch bs seq st) rfl
      (by intro x hx; simp [acqStart] at hx) h1 h2

/-- Witness for C7 amended: a run with threshold 1650 and batch size 1
transmits the batch `[4095]`, and the theorem yields the bound for its
sample. -/
theorem C7_threshold_filter_witness : mv_to_adc 1650 ≤ 4095 :=
  C7_threshold_filter 1650 0 1 0 ⟨0, 0, 0⟩ [AcqEvent.sample 4095 true]
    (fun mv h => by simp at h) (fun p h => by simp at h)
    ([4095], [122, 218, 16, 0, 0, 6, 0, 0, 0, 1, 0, 255, 15]) (by decide)
    4095 (by decide)

/-- Building a completed batch of more than 250 samples into the 512-byte
transmit buffer fails with `BufferTooSmall`: the packet would need
`7 + 4 + 2 * count > 512` bytes. -/
theorem build_oversized_batch (seq ch : Nat) (samples : List Nat)
    (hcount : 250 < samples.length) :
    protocol_build_data_packet seq false TX_BUFFER_SIZE ch false samples
      samples.length false =
      (PROTO_STATUS_BUFFER_TOO_SMALL, [], seq) := by
  simp only [protocol_build_data_packet, Bool.or_self, Bool.false_eq_true,
    if_false]
  rw [if_pos]
  show TX_BUFFER_SIZE < 7 + (4 + samples.length * 2)
  unfold TX_BUFFER_SIZE
  omega

/-- With a batch size above 250 that every batch-size event keeps above
250, one acquisition event transmits nothing and leaves `packets_sent`
unchanged. -/
theorem acqStep_no_tx (s : AcqState) (e : AcqEvent)
    (hbs : 250 < s.batch_size)
    (he : ∀ n, e = AcqEvent.setBatchSize n → 250 < n) :
    250 < (acqStep s e).1.batch_size ∧ (acqStep s e).2 = none ∧
    (acqStep s e).1.stats.packets_sent = s.stats.packets_sent := by
  cases e with
  | sample v send_ok =>
    simp only [acqStep, acquisition_iter]
    split_ifs with h1 h2 h3 h4
    · exfalso
      have hcount : 250 < (s.sample_buffer ++ [v]).length := by omega
      rw [build_oversized_batch s.seq s.current_channel
        (s.sample_buffer ++ [v]) hcount] at h3
      simp at h3
    · exfalso
      have hcount : 250 < (s.sample_buffer ++ [v]).length := by omega
      rw [build_oversized_batch s.seq s.current_channel
        (s.sample_buffer ++ [v]) hcount] at h3
      simp at h3
    · exact ⟨hbs, rfl, rfl⟩
    · exact ⟨hbs, rfl, rfl⟩
    · exact ⟨hbs, rfl, rfl⟩
  | sampleError => exact ⟨hbs, rfl, rfl⟩
  | setThresholdMv mv =>
    simp only [acqStep, acquisition_set_threshold_mv]
    split_ifs with h
    · exact ⟨hbs, trivial, rfl⟩
    · exact ⟨hbs, trivial, rfl⟩
  | setThresholdPercent p =>
    simp only [acqStep, acquisition_set_threshold_percent]
    split_ifs with h
    · exact ⟨hbs, trivial, rfl⟩
    · exact ⟨hbs, trivial, rfl⟩
  | setBatchSize n =>
    have hn : 250 < n := he n rfl
    simp only [acqStep, acquisition_set_batch_size]
    split_ifs with h
    · exact ⟨hbs, trivial, rfl⟩
    · exact ⟨hn, trivial, rfl⟩
  | setChannel ch adc_ok =>
    simp only [acqStep, acquisition_set_channel]
    split_ifs with h1 h2 h3
    · exact ⟨hbs, trivial, rfl⟩
    · exact ⟨hbs, trivial, rfl⟩
    · exact ⟨hbs, trivial, rfl⟩
    · exact ⟨hbs, trivial, rfl⟩

/-- Over a whole run in which the batch size stays above 250, nothing is
ever transmitted and `packets_sent` never moves. -/
theorem acqRun_no_tx (es : List AcqEvent) :
    ∀ s : AcqState, 250 < s.batch_size →
    (∀ n, AcqEvent.setBatchSize n ∈ es → 250 < n) →
    (acqRun s es).2 = [] ∧
    (acqRun s es).1.stats.packets_sent = s.stats.packets_sent := by
  induction es with
  | nil => exact fun s _ _ => ⟨rfl, rfl⟩
  | cons e es ih =>
    intro s hbs hes
    obtain ⟨h1, h2, h3⟩ := acqStep_no_tx s e hbs
      (fun n heq => hes n (heq ▸ List.mem_cons_self e es))
    obtain ⟨h4, h5⟩ := ih (acqStep s e).1 h1
      (fun n hm => hes n (List.mem_cons_of_mem _ hm))
    simp only [acqRun, h2, h4, List.append_nil]
    exact ⟨trivial, h5.trans h3⟩

/-- C10: with the 512-byte static transmit buffer, a configured batch
size above 250 (still accepted up to 500) makes every completed batch
fail to build with `BufferTooSmall` — the error counter is incremented,
the batch is discarded, the sequence counter is untouched — and no run
whose batch size stays above 250 ever transmits a DATA packet. -/
theorem C10_oversized_batch_never_sent :
    (∀ (s : AcqState) (v : Nat) (send_ok : Bool),
      250 < s.batch_size → s.batch_size ≤ s.sample_buffer.length + 1 →
      mv_to_adc s.threshold_mv ≤ v →
      acquisition_iter s v send_ok =
        ({ s with
            sample_buffer := [],
            stats := ⟨s.stats.samples_collected + 1, s.stats.packets_sent,
              s.stats.errors + 1⟩ }, none)) ∧
    (∀ (seq ch : Nat) (samples : List Nat), 250 < samples.length →
      (protocol_build_data_packet seq false TX_BUFFER_SIZE ch false samples
        samples.length false).1 = PROTO_STATUS_BUFFER_TOO_SMALL) ∧
    (∀ (thr ch bs seq : Nat) (st : acquisition_stats_t)
        (es : List AcqEvent),
      250 < bs → (∀ n, AcqEvent.setBatchSize n ∈ es → 250 < n) →
      (acqRun (acqStart thr ch bs seq st) es).2 = [] ∧
      (acqRun (acqStart thr ch bs seq st) es).1.stats.packets_sent =
        st.packets_sent) ∧
    (∀ (s : AcqState) (n : Nat), 250 < n → n ≤ 500 →
      (acquisition_set_batch_size s n).1 = 0) := by
  refine ⟨?_, ?_, ?_, ?_⟩
  · intro s v send_ok hbs hfull hv
    have hcount : 250 < (s.sample_buffer ++ [v]).length := by
      simp only [List.length_append, List.length_cons, List.length_nil]
      omega
    simp only [acquisition_iter]
    rw [if_pos (show v ≥ mv_to_adc s.threshold_mv from hv), if_pos (by
      show (s.sample_buffer ++ [v]).length ≥ s.batch_size
      simp only [List.length_append, List.length_cons, List.length_nil]
      omega)]
    rw [build_oversized_batch s.seq s.current_channel
      (s.sample_buffer ++ [v]) hcount]
    rw [if_neg (show ¬ ((PROTO_STATUS_BUFFER_TOO_SMALL, ([] : List Nat),
      s.seq).1 = PROTO_STATUS_OK) by simp)]
  · exact fun seq ch samples h => by
      rw [build_oversized_batch seq ch samples h]
  · intro thr ch bs seq st es hbs hes
    exact acqRun_no_tx es (acqStart thr ch bs seq st) hbs hes
  · intro s n h1 h2
    unfold acquisition_set_batch_size ACQUISITION_MAX_BATCH_SIZE
    rw [if_neg (by omega)]

/-- Witness for C10: a state with 250 pending samples and batch size 251
completes the batch, increments `errors` and transmits nothing; the
251-sample build fails with `BufferTooSmall`; a run at batch size 251
emits nothing; and batch size 500 is still accepted. -/
theorem C10_oversized_batch_never_sent_witness :
    acquisition_iter
        ⟨ACQ_STATE_RUNNING, ⟨250, 0, 0⟩, 0, 0, 251,
          List.replicate 250 3000, 7⟩ 3000 true =
      (⟨ACQ_STATE_RUNNING, ⟨251, 0, 1⟩, 0, 0, 251, [], 7⟩, none) ∧
    (protocol_build_data_packet 7 false TX_BUFFER_SIZE 0 false
        (List.replicate 251 3000) (List.replicate 251 3000).length
        false).1 = PROTO_STATUS_BUFFER_TOO_SMALL ∧
    (acqRun (acqStart 0 0 251 0 ⟨0, 0, 0⟩)
        [AcqEvent.sample 4095 true]).2 = [] ∧
    (acqRun (acqStart 0 0 251 0 ⟨0, 0, 0⟩)
        [AcqEvent.sample 4095 true]).1.stats.packets_sent = 0 ∧
    (acquisition_set_batch_size
        ⟨ACQ_STATE_IDLE, ⟨0, 0, 0⟩, 0, 1650, 100, [], 0⟩ 500).1 = 0 :=
  ⟨C10_oversized_batch_never_sent.1
      ⟨ACQ_STATE_RUNNING, ⟨250, 0, 0⟩, 0, 0, 251,
        List.replicate 250 3000, 7⟩ 3000 true (by decide) (by decide)
      (by decide),
   C10_oversized_batch_never_sent.2.1 7 0 (List.replicate 251 3000)
     (by decide),
   (C10_oversized_batch_never_sent.2.2.1 0 0 251 0 ⟨0, 0, 0⟩
       [AcqEvent.sample 4095 true] (by decide)
       (fun n h => by simp at h)).1,
   (C10_oversized_batch_never_sent.2.2.1 0 0 251 0 ⟨0, 0, 0⟩
       [AcqEvent.sample 4095 true] (by decide)
       (fun n h => by simp at h)).2,
   C10_oversized_batch_never_sent.2.2.2
     ⟨ACQ_STATE_IDLE, ⟨0, 0, 0⟩, 0, 1650, 100, [], 0⟩ 500 (by decide)
     (by decide)⟩

